import Mathlib

/-!
Verification of the usage-extraction engine of `uno-usage-scraper`.

The development shallowly embeds the two core components of the repository:

* `HourUsage` (`hour_usage.py`): the immutable value type holding the usage
  on a line during a one-hour period, together with its persisted (DynamoDB
  item) representation and the legacy flat-text line parser.
* `DailyUsageExtractor` (`uno.py`): the parsing pipeline that turns the two
  array literals scraped from the portal page into an ordered sequence of
  `HourUsage` values.

Python `datetime.datetime` values are modelled by the `DateTime` structure
below: explicit calendar fields plus the tzinfo's UTC offset in seconds.
Machine-level details that no claim depends on (binary floating point in the
megabyte-to-byte conversion, the exact regex engine) are modelled by exact
decimal arithmetic on the already-matched groups, as noted at each
definition.
-/

/-- Model of an aware Python `datetime.datetime`: calendar fields plus the
`utcoffset()` of the attached tzinfo, in seconds.  Python guarantees
`1 <= year <= 9999`, `1 <= month <= 12`, `1 <= day <= days in month`,
`hour < 24`, `minute, second < 60`, `microsecond < 1000000`; these are
captured by `DateTime.Valid` below rather than baked into the type. -/
structure DateTime where
  year : Int
  month : Nat
  day : Nat
  hour : Nat
  minute : Nat
  second : Nat
  microsecond : Nat
  offsetSeconds : Int
deriving DecidableEq, Repr

/-- Gregorian leap-year rule, as used by Python's `calendar`/`datetime`. -/
def isLeap (y : Int) : Bool :=
  y % 4 == 0 && (y % 100 != 0 || y % 400 == 0)

/-- Number of days in month `m` of year `y` (months are 1-based). -/
def daysInMonth (y : Int) (m : Nat) : Nat :=
  if m = 2 then (if isLeap y then 29 else 28)
  else if m = 4 ∨ m = 6 ∨ m = 9 ∨ m = 11 then 30
  else 31

/-- The Python `datetime` range invariants for a `DateTime` value. -/
def DateTime.Valid (t : DateTime) : Prop :=
  1 ≤ t.year ∧ t.year ≤ 9999 ∧ 1 ≤ t.month ∧ t.month ≤ 12 ∧ 1 ≤ t.day ∧
    t.day ≤ daysInMonth t.year t.month ∧ t.hour < 24 ∧ t.minute < 60 ∧
    t.second < 60 ∧ t.microsecond < 1000000

instance (t : DateTime) : Decidable t.Valid := by
  unfold DateTime.Valid; infer_instance

/-- The calendar day before `(y, m, d)`. -/
def datePrev (y : Int) (m d : Nat) : Int × Nat × Nat :=
  if 2 ≤ d then (y, m, d - 1)
  else if 2 ≤ m then (y, m - 1, daysInMonth y (m - 1))
  else (y - 1, 12, 31)

/-- The calendar day after `(y, m, d)`. -/
def dateNext (y : Int) (m d : Nat) : Int × Nat × Nat :=
  if d < daysInMonth y m then (y, m, d + 1)
  else if m < 12 then (y, m + 1, 1)
  else (y + 1, 1, 1)

/-- `n` calendar days forward. -/
def addDaysFwd : Nat → Int × Nat × Nat → Int × Nat × Nat
  | 0, p => p
  | n + 1, p => addDaysFwd n (dateNext p.1 p.2.1 p.2.2)

/-- `n` calendar days backward. -/
def addDaysBwd : Nat → Int × Nat × Nat → Int × Nat × Nat
  | 0, p => p
  | n + 1, p => addDaysBwd n (datePrev p.1 p.2.1 p.2.2)

/-- `k` calendar days away from `(y, m, d)` (either direction). -/
def addDays (y : Int) (m d : Nat) (k : Int) : Int × Nat × Nat :=
  if 0 ≤ k then addDaysFwd k.toNat (y, m, d) else addDaysBwd (-k).toNat (y, m, d)

/-- Model of `dt.astimezone(pytz.utc)` on an aware datetime: re-express the
same instant with a zero UTC offset.  Python restricts `utcoffset()` to the
open interval `(-1 day, +1 day)`, so shifting by one day before taking
`divmod` keeps the arithmetic in `Nat`. -/
def astimezoneUTC (t : DateTime) : DateTime :=
  let sod : Int := (t.hour : Int) * 3600 + (t.minute : Int) * 60 + (t.second : Int)
  let v : Nat := (sod - t.offsetSeconds + 86400).toNat
  let ymd := addDays t.year t.month t.day ((v / 86400 : Nat) - 1 : Int)
  { year := ymd.1, month := ymd.2.1, day := ymd.2.2,
    hour := v % 86400 / 3600, minute := v % 86400 / 60 % 60,
    second := v % 86400 % 60,
    microsecond := t.microsecond, offsetSeconds := 0 }

/-- `HourUsage` (`hour_usage.py`): usage on a line during a one-hour
period.  `down`/`up` are byte counts; Python ints are modelled by `Int`. -/
structure HourUsage where
  dt : DateTime
  down : Int
  up : Int
deriving DecidableEq, Repr

/-- `dt.replace(minute=0, second=0, microsecond=0)`. -/
def replaceSubHour (t : DateTime) : DateTime :=
  { t with minute := 0, second := 0, microsecond := 0 }

/-- `HourUsage.__init__`: stores `dt.replace(minute=0, second=0,
microsecond=0)` together with the two byte counts, exactly as the source
does — in particular it performs no timezone conversion and no sign check. -/
def HourUsage.init (t : DateTime) (down up : Int) : HourUsage :=
  ⟨replaceSubHour t, down, up⟩

/-- `HourUsage.total`. -/
def HourUsage.total (h : HourUsage) : Int := h.down + h.up

/-- The DynamoDB item representation produced by `HourUsage.item`: the
three-key mapping `{DateHour, DownloadedBytes, UploadedBytes}`. -/
structure Item where
  dateHour : String
  downloadedBytes : Int
  uploadedBytes : Int
deriving DecidableEq, Repr

/-- The character for decimal digit `n < 10`. -/
def digitChar (n : Nat) : Char := Char.ofNat (48 + n)

/-- `HourUsage.item`: renders `f'{self.dt:%Y-%m-%dT%HZ}'` (for the 4-digit
years the program works with) together with the two byte counts. -/
def HourUsage.item (h : HourUsage) : Item :=
  let y := h.dt.year.toNat
  { dateHour := ⟨[digitChar (y / 1000 % 10), digitChar (y / 100 % 10),
      digitChar (y / 10 % 10), digitChar (y % 10), '-',
      digitChar (h.dt.month / 10 % 10), digitChar (h.dt.month % 10), '-',
      digitChar (h.dt.day / 10 % 10), digitChar (h.dt.day % 10), 'T',
      digitChar (h.dt.hour / 10 % 10), digitChar (h.dt.hour % 10), 'Z']⟩,
    downloadedBytes := h.down,
    uploadedBytes := h.up }

/-- The numeric value of a decimal digit character, if it is one. -/
def digit? (c : Char) : Option Nat :=
  if c.isDigit then some (c.toNat - 48) else none

/-- Read two decimal digits from the front of a character list. -/
def read2 : List Char → Option (Nat × List Char)
  | a :: b :: rest =>
    match digit? a, digit? b with
    | some x, some y => some (x * 10 + y, rest)
    | _, _ => none
  | _ => none

/-- Read four decimal digits from the front of a character list. -/
def read4 : List Char → Option (Nat × List Char)
  | a :: b :: c :: d :: rest =>
    match digit? a, digit? b, digit? c, digit? d with
    | some x, some y, some z, some w => some (x * 1000 + y * 100 + z * 10 + w, rest)
    | _, _, _, _ => none
  | _ => none

/-- Consume an expected literal character. -/
def expectChar (c : Char) : List Char → Option (List Char)
  | x :: rest => if x = c then some rest else none
  | [] => none

/-- UTC-offset suffix of an ISO-8601 timestamp: `Z`, `+HH:MM` or `-HH:MM`. -/
def parseOffsetChars : List Char → Option Int
  | ['Z'] => some 0
  | [sg, o1, o2, ':', o3, o4] =>
    match digit? o1, digit? o2, digit? o3, digit? o4 with
    | some x1, some x2, some x3, some x4 =>
      let oh := x1 * 10 + x2
      let om := x3 * 10 + x4
      if oh < 24 ∧ om < 60 then
        if sg = '+' then some ((oh * 60 + om) * 60 : Nat)
        else if sg = '-' then some (-(((oh * 60 + om) * 60 : Nat) : Int))
        else none
      else none
    | _, _, _, _ => none
  | _ => none

/-- Model of `dateutil.parser.parse` on the two timestamp shapes this
program reads: the hour-bucket form `YYYY-MM-DDTHHZ` written by
`HourUsage.item`, and the full form `YYYY-MM-DDTHH:MM:SS<offset>` of the
legacy line format.  Out-of-range fields are rejected, as `dateutil`
rejects them. -/
def parseDateTimeChars (cs : List Char) : Option DateTime := do
  let (yv, cs1) ← read4 cs
  let cs2 ← expectChar '-' cs1
  let (mo, cs3) ← read2 cs2
  let cs4 ← expectChar '-' cs3
  let (da, cs5) ← read2 cs4
  let cs6 ← expectChar 'T' cs5
  let (ho, cs7) ← read2 cs6
  if 1 ≤ mo ∧ mo ≤ 12 ∧ 1 ≤ da ∧ da ≤ daysInMonth (yv : Int) mo ∧ ho < 24 then
    match cs7 with
    | ['Z'] => some ⟨(yv : Int), mo, da, ho, 0, 0, 0, 0⟩
    | ':' :: cs8 => do
      let (mi, cs9) ← read2 cs8
      let cs10 ← expectChar ':' cs9
      let (se, cs11) ← read2 cs10
      if mi < 60 ∧ se < 60 then
        let off ← parseOffsetChars cs11
        some ⟨(yv : Int), mo, da, ho, mi, se, 0, off⟩
      else none
    | _ => none
  else none

/-- `HourUsage.parse_item`: parse the `DateHour` string, convert it to UTC
and rebuild the sample; a bad timestamp raises `ValueError`, modelled by
the error branch.  (`int()` applied to the two already-integer byte fields
is the identity.) -/
def HourUsage.parse_item (it : Item) : Except String HourUsage :=
  match parseDateTimeChars it.dateHour.data with
  | some t => .ok (HourUsage.init (astimezoneUTC t) it.downloadedBytes it.uploadedBytes)
  | none => .error "The DateHour could not be parsed"

/-- Split a character list at the first occurrence of `c`, if any. -/
def splitOnce (c : Char) : List Char → Option (List Char × List Char)
  | [] => none
  | x :: xs =>
    if x = c then some ([], xs)
    else
      match splitOnce c xs with
      | some (l, r) => some (x :: l, r)
      | none => none

/-- Digits-to-number accumulator for `pythonInt`. -/
def digitsVal? : List Char → Nat → Option Nat
  | [], acc => some acc
  | c :: cs, acc =>
    match digit? c with
    | some d => digitsVal? cs (acc * 10 + d)
    | none => none

/-- A non-empty all-digit character list as a number. -/
def digitsToNat? : List Char → Option Nat
  | [] => none
  | cs => digitsVal? cs 0

/-- Model of Python `int(text)` on the decimal texts this program feeds it:
an optional sign followed by one or more digits.  Note that negative
numbers are accepted. -/
def pythonInt : List Char → Option Int
  | '-' :: cs => (digitsToNat? cs).map (fun n => -(n : Int))
  | '+' :: cs => (digitsToNat? cs).map (fun n => (n : Int))
  | cs => (digitsToNat? cs).map (fun n => (n : Int))

/-- `HourUsage.parse_line`: `line.split(',', 2)` (two splits at most, so the
third field keeps any further commas), unpacking into exactly three parts,
then `dateutil` parsing, UTC conversion and `int()` on the two counts.  The
source's docstring gives the field order: `"<ISO8601 datetime>,<downloaded
bytes>,<uploaded bytes>"`. -/
def HourUsage.parse_line (line : String) : Except String HourUsage :=
  match splitOnce ',' line.data with
  | none => .error "not enough values to unpack"
  | some (dtCs, rest) =>
    match splitOnce ',' rest with
    | none => .error "not enough values to unpack"
    | some (downCs, upCs) =>
      match parseDateTimeChars dtCs, pythonInt downCs, pythonInt upCs with
      | some t, some dn, some uv => .ok (HourUsage.init (astimezoneUTC t) dn uv)
      | _, _, _ => .error "invalid field"

/-! ## `DailyUsageExtractor` (`uno.py`) -/

/-- `utcoffset()` of `datetime.datetime(..., tzinfo=_TZ_LONDON)` where
`_TZ_LONDON = pytz.timezone('Europe/London')`: attaching a pytz zone via
the constructor picks the zone's first (LMT) entry, −00:01:15, i.e. −75
seconds, regardless of the date. -/
def londonConstructorOffset : Int := -75

/-- One regex match of `_ENTRY_REGEX` with its groups already converted:
`hour` is `int(match[0])`, `marker` is `match[1]` (`"am"` or `"pm"`), and
the decimal megabyte text `match[2]` is split into its integer part and the
list of its fractional digits.  The float conversion `int(float(m) * 1e6)`
is modelled by exact decimal arithmetic in `entryBytes`. -/
structure Entry where
  hour : Nat
  marker : String
  megaWhole : Nat
  megaFrac : List Nat
deriving DecidableEq, Repr

/-- The 12-hour-clock decoding steps of `DailyUsageExtractor._parse_entry`:
`if hour == 12 or is_afternoon: hour = (hour + 12) % 24` followed by
`if hour == 0 and is_afternoon: hour = 12`. -/
def decodeHour (hour12 : Nat) (marker : String) : Nat :=
  let h := if hour12 = 12 ∨ marker = "pm" then (hour12 + 12) % 24 else hour12
  if h = 0 ∧ marker = "pm" then 12 else h

/-- The first six fractional digits (zero-padded) as a number: the exact
value of `frac * 10^6` truncated to an integer. -/
def fracDigitsTimesMillion (ds : List Nat) : Nat :=
  (ds.take 6 ++ List.replicate (6 - ds.length) 0).foldl (fun a d => a * 10 + d) 0

/-- `int(float(match[2]) * 1e6)`, with the megabyte decimal evaluated
exactly rather than through binary floating point (no claim depends on the
double-rounding corner cases). -/
def entryBytes (e : Entry) : Nat :=
  e.megaWhole * 1000000 + fracDigitsTimesMillion e.megaFrac

/-- `DailyUsageExtractor._parse_entry`: decode the 12-hour clock value,
build the candidate local timestamp on `_LONDON_NOW`'s calendar date with
`tzinfo=_TZ_LONDON`, subtract one day when the candidate hour is `>=` the
current local hour (`time -= datetime.timedelta(days=1)`), and convert the
megabytes to bytes. -/
def parse_entry (now : DateTime) (e : Entry) : DateTime × Int :=
  let h := decodeHour e.hour e.marker
  let t : DateTime :=
    if now.hour ≤ h then
      let p := datePrev now.year now.month now.day
      ⟨p.1, p.2.1, p.2.2, h, 0, 0, 0, londonConstructorOffset⟩
    else
      ⟨now.year, now.month, now.day, h, 0, 0, 0, londonConstructorOffset⟩
  (t, (entryBytes e : Int))

/-- `DailyUsageExtractor._extract_data_points`, run to exhaustion as the
generator it is: the first component collects the records yielded before
the generator finishes or raises, the second carries the `ParseError`
message if one is raised.  Both operands of the `d_time != u_time`
comparison carry the same tzinfo, so Python's instant comparison coincides
with structural equality.  Note the source's argument order at the yield:
`HourUsage(d_time.astimezone(pytz.utc), u_bytes, d_bytes)` against the
constructor signature `(dt, down, up)`. -/
def extract_data_points (now : DateTime) :
    List Entry → List Entry → List HourUsage × Option String
  | dEntry :: ds, uEntry :: us =>
    let dp := parse_entry now dEntry
    let uq := parse_entry now uEntry
    if dp.1 ≠ uq.1 then
      ([], some "Download/upload array data points do not match up")
    else
      let rest := extract_data_points now ds us
      (HourUsage.init (astimezoneUTC dp.1) uq.2 dp.2 :: rest.1, rest.2)
  | _, _ => ([], none)

/-- Equality of `Except` results is decidable when both components' is,
allowing the concrete parses below to be settled by evaluation. -/
instance {ε α : Type} [DecidableEq ε] [DecidableEq α] : DecidableEq (Except ε α) :=
  fun x y =>
    match x, y with
    | .ok a, .ok b =>
      if h : a = b then isTrue (by rw [h])
      else isFalse (by intro hc; cases hc; exact h rfl)
    | .error a, .error b =>
      if h : a = b then isTrue (by rw [h])
      else isFalse (by intro hc; cases hc; exact h rfl)
    | .ok _, .error _ => isFalse (by intro hc; cases hc)
    | .error _, .ok _ => isFalse (by intro hc; cases hc)

/-! ## Theorems -/

/-- Claim C1 (code bug): with "now" = 2018-10-27 22:00 London, a download
array entry `("5\npm", 100)` and an upload array entry `("5\npm", 200)`,
extraction succeeds, but the single record carries the upload array's
200000000 bytes in its `down` field and the download array's 100000000
bytes in its `up` field — the yield `HourUsage(d_time, u_bytes, d_bytes)`
passes the upload count to the constructor's `down` parameter,
contradicting the claim, the constructor's documented parameter order and
`_extract_data_points`'s own variable names. -/
theorem extract_swaps_upload_and_download :
    extract_data_points ⟨2018, 10, 27, 22, 0, 0, 0, -75⟩
        [⟨5, "pm", 100, []⟩] [⟨5, "pm", 200, []⟩] =
      ([⟨⟨2018, 10, 27, 17, 0, 0, 0, 0⟩, 200000000, 100000000⟩], none) ∧
    ¬ (HourUsage.down ⟨⟨2018, 10, 27, 17, 0, 0, 0, 0⟩, 200000000, 100000000⟩ =
        100000000) := by
  decide

/-- Claim C2 (counterexample): the legacy line
`"2017-08-30T08:00:00+00:00,17620000,14650000"` parses with
`down = 17620000` and `up = 14650000`; its uploaded field is not 17620000,
so the claimed field order `<datetime>,<uploaded>,<downloaded>` is wrong. -/
theorem parse_line_example_uploaded_field_ne :
    HourUsage.parse_line "2017-08-30T08:00:00+00:00,17620000,14650000" =
      .ok ⟨⟨2017, 8, 30, 8, 0, 0, 0, 0⟩, 17620000, 14650000⟩ ∧
    ¬ (HourUsage.up ⟨⟨2017, 8, 30, 8, 0, 0, 0, 0⟩, 17620000, 14650000⟩ =
        17620000) := by
  decide

/-- Claim C2 (amended): `parse_line` interprets a legacy line as
`"<ISO-8601 datetime>,<downloaded>,<uploaded>"`; the example line parses to
a record with hour 2017-08-30T08:00Z, downloaded = 17620000 and
uploaded = 14650000. -/
theorem parse_line_field_order :
    HourUsage.parse_line "2017-08-30T08:00:00+00:00,17620000,14650000" =
      .ok ⟨⟨2017, 8, 30, 8, 0, 0, 0, 0⟩, 17620000, 14650000⟩ ∧
    HourUsage.down ⟨⟨2017, 8, 30, 8, 0, 0, 0, 0⟩, 17620000, 14650000⟩ =
      17620000 ∧
    HourUsage.up ⟨⟨2017, 8, 30, 8, 0, 0, 0, 0⟩, 17620000, 14650000⟩ =
      14650000 := by
  decide

/-- Claim C3 (counterexample): constructing a record from the timestamp
2018-10-27 22:25:22.000342 at offset +01:00 keeps the +01:00 offset — the
constructor performs no conversion to UTC, so the `hour` field is not
expressed in UTC (which would be 21:00 at offset 0). -/
theorem init_keeps_nonzero_offset :
    (HourUsage.init ⟨2018, 10, 27, 22, 25, 22, 342, 3600⟩ 1 2).dt =
      ⟨2018, 10, 27, 22, 0, 0, 0, 3600⟩ ∧
    ¬ ((HourUsage.init ⟨2018, 10, 27, 22, 25, 22, 342, 3600⟩ 1 2).dt.offsetSeconds
        = 0) := by
  decide

/-- Claim C3 (amended): for every timestamp passed to the constructor, the
resulting record's `dt` has minute, second and microsecond zeroed and every
other field — including the timezone offset — unchanged; UTC conversion is
performed by the parsing call sites (which apply `astimezone(pytz.utc)`
before constructing), not by the constructor. -/
theorem init_truncates_and_keeps_zone (t : DateTime) (down up : Int) :
    (HourUsage.init t down up).dt =
      ⟨t.year, t.month, t.day, t.hour, 0, 0, 0, t.offsetSeconds⟩ := by
  cases t; rfl

/-- Claim C5: the 12-hour decoding rule maps (1, am) to 1, (12, am) to 0,
(1, pm) to 13, (12, pm) to 12 and (11, pm) to 23 — the 24-hour local hour
of the decoded entry. -/
theorem decodeHour_table :
    decodeHour 1 "am" = 1 ∧ decodeHour 12 "am" = 0 ∧
    decodeHour 1 "pm" = 13 ∧ decodeHour 12 "pm" = 12 ∧
    decodeHour 11 "pm" = 23 := by
  decide

/-- Claim C7 (counterexample): with matching first entries and mismatching
second entries, the extraction generator raises the mismatch `ParseError`
but has already yielded the record for the first pair — it does not hold
back all records. -/
theorem extract_mismatch_emits_prefix :
    ((extract_data_points ⟨2018, 10, 27, 22, 0, 0, 0, -75⟩
        [⟨5, "pm", 100, []⟩, ⟨6, "pm", 1, []⟩]
        [⟨5, "pm", 200, []⟩, ⟨7, "pm", 1, []⟩]).2).isSome = true ∧
    ¬ ((extract_data_points ⟨2018, 10, 27, 22, 0, 0, 0, -75⟩
        [⟨5, "pm", 100, []⟩, ⟨6, "pm", 1, []⟩]
        [⟨5, "pm", 200, []⟩, ⟨7, "pm", 1, []⟩]).1 = []) := by
  decide

/-- Claim C8 (counterexample): the legacy line
`"2017-08-30T08:00:00+00:00,-1,-2"` parses successfully to a record with
negative downloaded and uploaded counts — `int()` accepts negative
integers and no construction path checks the sign. -/
theorem parse_line_accepts_negative :
    HourUsage.parse_line "2017-08-30T08:00:00+00:00,-1,-2" =
      .ok ⟨⟨2017, 8, 30, 8, 0, 0, 0, 0⟩, -1, -2⟩ ∧
    ¬ (0 ≤ HourUsage.down ⟨⟨2017, 8, 30, 8, 0, 0, 0, 0⟩, -1, -2⟩) := by
  decide

/-- Claim C9 (counterexample): a page whose arrays repeat the same entry
twice extracts successfully into two records with the same hour — the
output is neither strictly ascending nor duplicate-free. -/
theorem extract_accepts_duplicate_hours :
    (extract_data_points ⟨2018, 10, 27, 22, 0, 0, 0, -75⟩
        [⟨5, "pm", 100, []⟩, ⟨5, "pm", 100, []⟩]
        [⟨5, "pm", 100, []⟩, ⟨5, "pm", 100, []⟩]).2 = none ∧
    ((extract_data_points ⟨2018, 10, 27, 22, 0, 0, 0, -75⟩
        [⟨5, "pm", 100, []⟩, ⟨5, "pm", 100, []⟩]
        [⟨5, "pm", 100, []⟩, ⟨5, "pm", 100, []⟩]).1.map HourUsage.dt) =
      [⟨2018, 10, 27, 17, 0, 0, 0, 0⟩, ⟨2018, 10, 27, 17, 0, 0, 0, 0⟩] ∧
    ¬ ((extract_data_points ⟨2018, 10, 27, 22, 0, 0, 0, -75⟩
        [⟨5, "pm", 100, []⟩, ⟨5, "pm", 100, []⟩]
        [⟨5, "pm", 100, []⟩, ⟨5, "pm", 100, []⟩]).1.map HourUsage.dt).Nodup := by
  decide

/-- Claim C6: whenever the decoded 24-hour value is numerically greater
than or equal to the current local hour of "now", `_parse_entry` places the
entry on the calendar day before "now"'s date (at the decoded hour, with
the constructor's tzinfo attached). -/
theorem parse_entry_day_rollover (now : DateTime) (e : Entry)
    (h : now.hour ≤ decodeHour e.hour e.marker) :
    (parse_entry now e).1 =
      ⟨(datePrev now.year now.month now.day).1,
       (datePrev now.year now.month now.day).2.1,
       (datePrev now.year now.month now.day).2.2,
       decodeHour e.hour e.marker, 0, 0, 0, londonConstructorOffset⟩ := by
  simp [parse_entry, h]

/-- Claim C6 (witness): with "now" = 2018-10-27 22:00 local, the entry
(11, "pm") decodes to hour 23 ≥ 22 and resolves to 2018-10-26 23:00 local,
the previous calendar day. -/
theorem parse_entry_day_rollover_witness :
    (⟨2018, 10, 27, 22, 0, 0, 0, -75⟩ : DateTime).hour ≤ decodeHour 11 "pm" ∧
    (parse_entry ⟨2018, 10, 27, 22, 0, 0, 0, -75⟩ ⟨11, "pm", 0, []⟩).1 =
      ⟨2018, 10, 26, 23, 0, 0, 0, londonConstructorOffset⟩ :=
  ⟨by decide,
   (parse_entry_day_rollover ⟨2018, 10, 27, 22, 0, 0, 0, -75⟩
      ⟨11, "pm", 0, []⟩ (by decide)).trans (by decide)⟩

/-- Claim C8 (amended): every record produced by the extraction pipeline
has non-negative byte counts in both fields, because the regex only
matches unsigned decimals; the parsing construction paths, by contrast,
accept negative integers (see the counterexample). -/
theorem extract_records_nonneg (now : DateTime) (ds us : List Entry)
    (r : HourUsage) (hr : r ∈ (extract_data_points now ds us).1) :
    0 ≤ r.down ∧ 0 ≤ r.up := by
  induction ds generalizing us with
  | nil => simp [extract_data_points] at hr
  | cons d ds ih =>
    cases us with
    | nil => simp [extract_data_points] at hr
    | cons u us =>
      simp only [extract_data_points] at hr
      by_cases hne : (parse_entry now d).1 ≠ (parse_entry now u).1
      · simp [hne] at hr
      · simp only [hne, if_false, List.mem_cons] at hr
        rcases hr with h1 | h2
        · subst h1
          constructor <;>
            simp [HourUsage.init, parse_entry, Int.natCast_nonneg]
        · exact ih us h2

/-- Claim C8 (amended, witness): a concrete extracted record has
non-negative byte counts. -/
theorem extract_records_nonneg_witness :
    (⟨⟨2018, 10, 27, 1, 0, 0, 0, 0⟩, 4000000, 3000000⟩ : HourUsage) ∈
      (extract_data_points ⟨2018, 10, 27, 22, 0, 0, 0, -75⟩
        [⟨1, "am", 3, []⟩] [⟨1, "am", 4, []⟩]).1 ∧
    0 ≤ HourUsage.down ⟨⟨2018, 10, 27, 1, 0, 0, 0, 0⟩, 4000000, 3000000⟩ ∧
    0 ≤ HourUsage.up ⟨⟨2018, 10, 27, 1, 0, 0, 0, 0⟩, 4000000, 3000000⟩ :=
  ⟨by decide,
   extract_records_nonneg ⟨2018, 10, 27, 22, 0, 0, 0, -75⟩
     [⟨1, "am", 3, []⟩] [⟨1, "am", 4, []⟩]
     ⟨⟨2018, 10, 27, 1, 0, 0, 0, 0⟩, 4000000, 3000000⟩ (by decide)⟩

/-- Claim C10: when every aligned pair of download/upload entries decodes
to the same local timestamp, extraction raises no error and produces
exactly `min (len download) (len upload)` records — `zip` silently drops
the excess entries of the longer array. -/
theorem extract_zip_truncates (now : DateTime) (ds us : List Entry)
    (h : ∀ p ∈ ds.zip us, (parse_entry now p.1).1 = (parse_entry now p.2).1) :
    (extract_data_points now ds us).2 = none ∧
    (extract_data_points now ds us).1.length = min ds.length us.length := by
  induction ds generalizing us with
  | nil => simp [extract_data_points]
  | cons d ds ih =>
    cases us with
    | nil => simp [extract_data_points]
    | cons u us =>
      have h0 : (parse_entry now d).1 = (parse_entry now u).1 :=
        h (d, u) (by simp)
      have ht := ih us (fun p hp => h p (by simp [hp]))
      simp only [extract_data_points, h0, ne_eq, not_true_eq_false, if_false,
        List.length_cons, ht.1, ht.2]
      constructor
      · trivial
      · omega

/-- Claim C10 (witness): a two-entry download array zipped against a
one-entry upload array extracts without error into exactly one record. -/
theorem extract_zip_truncates_witness :
    (∀ p ∈ (([⟨1, "am", 1, []⟩, ⟨2, "am", 1, []⟩] : List Entry).zip
        [⟨1, "am", 2, []⟩]),
      (parse_entry ⟨2018, 10, 27, 22, 0, 0, 0, -75⟩ p.1).1 =
      (parse_entry ⟨2018, 10, 27, 22, 0, 0, 0, -75⟩ p.2).1) ∧
    ((extract_data_points ⟨2018, 10, 27, 22, 0, 0, 0, -75⟩
        [⟨1, "am", 1, []⟩, ⟨2, "am", 1, []⟩] [⟨1, "am", 2, []⟩]).2 = none ∧
     (extract_data_points ⟨2018, 10, 27, 22, 0, 0, 0, -75⟩
        [⟨1, "am", 1, []⟩, ⟨2, "am", 1, []⟩] [⟨1, "am", 2, []⟩]).1.length =
       min ([⟨1, "am", 1, []⟩, ⟨2, "am", 1, []⟩] : List Entry).length
         ([⟨1, "am", 2, []⟩] : List Entry).length) :=
  ⟨by decide,
   extract_zip_truncates ⟨2018, 10, 27, 22, 0, 0, 0, -75⟩
     [⟨1, "am", 1, []⟩, ⟨2, "am", 1, []⟩] [⟨1, "am", 2, []⟩] (by decide)⟩

/-- Claim C7 (amended): when the `n`-th zipped pair of entries is the first
whose decoded local timestamps differ, the extraction generator raises the
mismatch `ParseError`, having already yielded exactly the `n` records of
the pairs before it; nothing at or after the mismatch position is
emitted. -/
theorem extract_first_mismatch (now : DateTime) :
    ∀ (ds us : List Entry) (n : Nat) (hn : n < (ds.zip us).length),
      (∀ i (hi : i < n),
        (parse_entry now ((ds.zip us).get ⟨i, Nat.lt_trans hi hn⟩).1).1 =
          (parse_entry now ((ds.zip us).get ⟨i, Nat.lt_trans hi hn⟩).2).1) →
      (parse_entry now ((ds.zip us).get ⟨n, hn⟩).1).1 ≠
          (parse_entry now ((ds.zip us).get ⟨n, hn⟩).2).1 →
      ((extract_data_points now ds us).2).isSome = true ∧
      (extract_data_points now ds us).1.length = n := by
  intro ds
  induction ds with
  | nil => intro us n hn _ _; simp at hn
  | cons d ds ih =>
    intro us n hn hpre hmis
    cases us with
    | nil => simp at hn
    | cons u us =>
      cases n with
      | zero =>
        have hne : (parse_entry now d).1 ≠ (parse_entry now u).1 := by
          simpa using hmis
        simp [extract_data_points, hne]
      | succ n =>
        have h0 : (parse_entry now d).1 = (parse_entry now u).1 := by
          simpa using hpre 0 (Nat.succ_pos n)
        have hn' : n < (ds.zip us).length := by
          simp only [List.zip_cons_cons, List.length_cons] at hn
          omega
        have hpre' : ∀ i (hi : i < n),
            (parse_entry now ((ds.zip us).get ⟨i, Nat.lt_trans hi hn'⟩).1).1 =
              (parse_entry now ((ds.zip us).get ⟨i, Nat.lt_trans hi hn'⟩).2).1 := by
          intro i hi
          simpa using hpre (i + 1) (Nat.succ_lt_succ hi)
        have hmis' : (parse_entry now ((ds.zip us).get ⟨n, hn'⟩).1).1 ≠
            (parse_entry now ((ds.zip us).get ⟨n, hn'⟩).2).1 := by
          simpa using hmis
        have ht := ih us n hn' hpre' hmis'
        simp only [extract_data_points, h0, ne_eq, not_true_eq_false, if_false]
        simp [ht.1, ht.2]

/-- Claim C7 (amended, witness): a mismatch at position 1 raises the error
after emitting exactly the one record of the matching pair before it. -/
theorem extract_first_mismatch_witness :
    ((extract_data_points ⟨2018, 10, 27, 22, 0, 0, 0, -75⟩
        [⟨1, "am", 1, []⟩, ⟨2, "am", 1, []⟩]
        [⟨1, "am", 1, []⟩, ⟨3, "am", 1, []⟩]).2).isSome = true ∧
    (extract_data_points ⟨2018, 10, 27, 22, 0, 0, 0, -75⟩
        [⟨1, "am", 1, []⟩, ⟨2, "am", 1, []⟩]
        [⟨1, "am", 1, []⟩, ⟨3, "am", 1, []⟩]).1.length = 1 :=
  extract_first_mismatch ⟨2018, 10, 27, 22, 0, 0, 0, -75⟩
    [⟨1, "am", 1, []⟩, ⟨2, "am", 1, []⟩] [⟨1, "am", 1, []⟩, ⟨3, "am", 1, []⟩]
    1 (by decide)
    (fun i hi => by
      have h0 : i = 0 := by omega
      subst h0
      exact rfl)
    (by decide)

/-- Claim C9 (amended): on any input on which extraction succeeds, the
records' hours are exactly the decoded local timestamps of the zipped
pairs, converted to UTC and truncated to the hour, in document order — the
extractor never reorders, drops or deduplicates entries, and it performs
no check that this sequence is ascending or duplicate-free. -/
theorem extract_preserves_document_order (now : DateTime) (ds us : List Entry)
    (h : (extract_data_points now ds us).2 = none) :
    (extract_data_points now ds us).1.map HourUsage.dt =
      (ds.zip us).map
        (fun p => replaceSubHour (astimezoneUTC (parse_entry now p.1).1)) := by
  induction ds generalizing us with
  | nil => simp [extract_data_points]
  | cons d ds ih =>
    cases us with
    | nil => simp [extract_data_points]
    | cons u us =>
      simp only [extract_data_points] at h ⊢
      by_cases hne : (parse_entry now d).1 ≠ (parse_entry now u).1
      · simp [hne] at h
      · simp only [hne, if_false] at h ⊢
        simp [HourUsage.init, ih us h]

/-- Claim C9 (amended, witness): on a concrete two-entry input the record
hours are the converted decoded timestamps in document order. -/
theorem extract_preserves_document_order_witness :
    (extract_data_points ⟨2018, 10, 27, 22, 0, 0, 0, -75⟩
        [⟨1, "am", 1, []⟩, ⟨2, "am", 1, []⟩]
        [⟨1, "am", 2, []⟩, ⟨2, "am", 2, []⟩]).2 = none ∧
    (extract_data_points ⟨2018, 10, 27, 22, 0, 0, 0, -75⟩
        [⟨1, "am", 1, []⟩, ⟨2, "am", 1, []⟩]
        [⟨1, "am", 2, []⟩, ⟨2, "am", 2, []⟩]).1.map HourUsage.dt =
      (([⟨1, "am", 1, []⟩, ⟨2, "am", 1, []⟩] : List Entry).zip
          ([⟨1, "am", 2, []⟩, ⟨2, "am", 2, []⟩] : List Entry)).map
        (fun p => replaceSubHour (astimezoneUTC
          (parse_entry ⟨2018, 10, 27, 22, 0, 0, 0, -75⟩ p.1).1)) :=
  ⟨by decide,
   extract_preserves_document_order ⟨2018, 10, 27, 22, 0, 0, 0, -75⟩
     [⟨1, "am", 1, []⟩, ⟨2, "am", 1, []⟩]
     [⟨1, "am", 2, []⟩, ⟨2, "am", 2, []⟩] (by decide)⟩

/-- Decoding inverts encoding on single decimal digits. -/
theorem digit?_digitChar : ∀ n < 10, digit? (digitChar n) = some n := by decide

/-- `digit?` recovers any digit written as `n % 10`. -/
theorem digit?_digitChar_mod (n : Nat) : digit? (digitChar (n % 10)) = some (n % 10) :=
  digit?_digitChar (n % 10) (Nat.mod_lt n (by norm_num))

/-- `addDays` by zero days is the identity. -/
theorem addDays_zero (y : Int) (m d : Nat) : addDays y m d 0 = (y, m, d) := by
  simp [addDays, addDaysFwd]

/-- `astimezone(pytz.utc)` is the identity on an in-range datetime whose
offset is already zero. -/
theorem astimezoneUTC_utc (t : DateTime) (hoff : t.offsetSeconds = 0)
    (hh : t.hour < 24) (hm : t.minute < 60) (hs : t.second < 60) :
    astimezoneUTC t = t := by
  obtain ⟨y, mo, da, h, mi, s, us, off⟩ := t
  simp only at hoff hh hm hs
  subst hoff
  have hv : ((h : Int) * 3600 + (mi : Int) * 60 + (s : Int) - 0 + 86400).toNat
      = h * 3600 + mi * 60 + s + 86400 := by omega
  simp only [astimezoneUTC, hv]
  have hdiv : (h * 3600 + mi * 60 + s + 86400) / 86400 = 1 := by omega
  simp only [hdiv, Nat.cast_one, sub_self, addDays_zero]
  simp only [DateTime.mk.injEq, true_and, and_true]
  refine ⟨?_, ?_, ?_⟩ <;> omega

/-- `read4` recovers four encoded digits. -/
theorem read4_mod (a b c d : Nat) (rest : List Char) :
    read4 (digitChar (a % 10) :: digitChar (b % 10) :: digitChar (c % 10) ::
      digitChar (d % 10) :: rest) =
      some (a % 10 * 1000 + b % 10 * 100 + c % 10 * 10 + d % 10, rest) := by
  simp [read4, digit?_digitChar_mod]

/-- `read2` recovers two encoded digits. -/
theorem read2_mod (a b : Nat) (rest : List Char) :
    read2 (digitChar (a % 10) :: digitChar (b % 10) :: rest) =
      some (a % 10 * 10 + b % 10, rest) := by
  simp [read2, digit?_digitChar_mod]

/-- `expectChar` consumes the character it expects. -/
theorem expectChar_cons_self (c : Char) (rest : List Char) :
    expectChar c (c :: rest) = some rest := by simp [expectChar]

/-- No month has more than 31 days. -/
theorem daysInMonth_le31 (y : Int) (m : Nat) : daysInMonth y m ≤ 31 := by
  unfold daysInMonth
  split_ifs <;> norm_num

/-- Claim C4: the round-trip law — for every valid record (constructed from
an in-range UTC timestamp with a four-digit year, the only records the
program ever builds), parsing the persisted item reproduces an equal
record: `parse_item (r.item) = r`. -/
theorem parse_item_roundtrip (t : DateTime) (down up : Int)
    (hv : t.Valid) (hoff : t.offsetSeconds = 0) (hy : 1000 ≤ t.year) :
    HourUsage.parse_item (HourUsage.init t down up).item =
      .ok (HourUsage.init t down up) := by
  obtain ⟨y, mo, da, h, mi, s, us, off⟩ := t
  simp only [DateTime.Valid] at hv
  obtain ⟨hv1, hv2, hv3, hv4, hv5, hv6, hv7, hv8, hv9, hv10⟩ := hv
  simp only at hoff hy
  subst hoff
  obtain ⟨Y, hYy⟩ : ∃ Y : Nat, (Y : Int) = y := ⟨y.toNat, by omega⟩
  subst hYy
  have hY2 : Y ≤ 9999 := by omega
  have eT : ((Y : Int)).toNat = Y := by omega
  have eY : Y / 1000 % 10 * 1000 + Y / 100 % 10 * 100 + Y / 10 % 10 * 10 +
      Y % 10 = Y := by omega
  have emo : mo / 10 % 10 * 10 + mo % 10 = mo := by omega
  have hda : da ≤ 31 := hv6.trans (daysInMonth_le31 _ _)
  have eda : da / 10 % 10 * 10 + da % 10 = da := by omega
  have eh : h / 10 % 10 * 10 + h % 10 = h := by omega
  have east := astimezoneUTC_utc ⟨(Y : Int), mo, da, h, 0, 0, 0, 0⟩ rfl hv7
    (by norm_num) (by norm_num)
  simp only [HourUsage.parse_item, HourUsage.item, HourUsage.init, replaceSubHour]
  simp only [eT, parseDateTimeChars, read4_mod, read2_mod, expectChar_cons_self,
    Option.bind_eq_bind, Option.some_bind, eY, emo, eda, eh,
    hv3, hv4, hv5, hv6, hv7, and_self, if_true, east]

/-- Claim C4 (witness): the round-trip law at the unit tests' sample,
`HourUsage(2018-10-27 22:25:22.000342+00:00, 3487529, 934785)`. -/
theorem parse_item_roundtrip_witness :
    (⟨2018, 10, 27, 22, 25, 22, 342, 0⟩ : DateTime).Valid ∧
    (⟨2018, 10, 27, 22, 25, 22, 342, 0⟩ : DateTime).offsetSeconds = 0 ∧
    1000 ≤ (⟨2018, 10, 27, 22, 25, 22, 342, 0⟩ : DateTime).year ∧
    HourUsage.parse_item
        (HourUsage.init ⟨2018, 10, 27, 22, 25, 22, 342, 0⟩ 3487529 934785).item =
      .ok (HourUsage.init ⟨2018, 10, 27, 22, 25, 22, 342, 0⟩ 3487529 934785) :=
  ⟨by decide, by decide, by decide,
   parse_item_roundtrip ⟨2018, 10, 27, 22, 25, 22, 342, 0⟩ 3487529 934785
     (by decide) (by decide) (by decide)⟩
